import Mathlib

/-!
Verification of `backitup::backup` (src/lib.rs).

A shallow embedding of the Rust crate *Back It Up!*. The crate exports a
single function `backup(path) -> Result<PathBuf, std::io::Error>` which
validates the input path, synthesizes a timestamped backup name, resolves
name collisions by re-probing with a microsecond suffix, and renames the
original path to the backup name.

Modelling choices:

* `std::io::Error` is modelled by `IoError` (kind + message); `io::ErrorKind`
  by `IoErrorKind` (only the kinds the development needs are listed; `other`
  stands for every further kind the environment may produce).
* The Rust code observes a `Path` only through `exists()`, `parent()`,
  `file_name()` and `OsStr::to_str()` on the two components.  `RustPath`
  records exactly those observations: `parent = none` models
  `Path::parent() == None` (the path is a root or empty), and
  `parent = some none` models a parent whose `OsStr` is not valid UTF-8
  (`to_str() == None`); similarly for `fileName`, where `fileName = none`
  models `Path::file_name() == None` (path ends in `..`).
* The filesystem and the clock are an explicit environment `Env`.
  `Path::exists()` in Rust is `fs::metadata(..).is_ok()`: the metadata
  syscall may fail for reasons other than absence (e.g. permission denied),
  and `exists()` maps *any* failure to `false`.  The model therefore keeps
  the underlying metadata result (`Except IoError Unit`) and derives the
  boolean with `metaIsOk`, exactly as `exists()` does.
* Existence probes happen at distinct moments, so the metadata oracle and
  the clock are indexed by the number of probes/samples made so far:
  `times 0` is the sample taken before the collision loop, `times (k+1)`
  the sample taken in the k-th loop iteration (0-based).
* The `while backup_name.exists()` loop has no bound in the source; it is
  embedded with explicit fuel, `none` meaning the loop was still running
  after `fuel` existence probes.
* Every filesystem interaction is recorded in an `Effect` trace so that
  frame conditions ("exactly one rename", "nothing is touched before the
  rename step") are provable rather than assumed.
* `chrono`'s `format("%Y-%m-%d-%H-%M-%S")` is modelled by
  `LocalTime.fmtTimestamp` (each field zero-padded, `%Y` to width 4, the
  rest to width 2), and `timestamp_subsec_micros()` by
  `nanos / 1000`, following chrono's documented semantics.
-/

namespace Backitup

/-- Result of `chrono::DateTime<Local>` sampled from the system clock:
calendar fields plus the sub-second nanoseconds. -/
structure LocalTime where
  year : Nat
  month : Nat
  day : Nat
  hour : Nat
  minute : Nat
  second : Nat
  nanos : Nat
deriving Repr, DecidableEq

/-- Decimal rendering of `n`, left-padded with `'0'` to width `w`
(chrono's zero-padded numeric formatting). -/
def padZeros (w : Nat) (n : Nat) : String :=
  String.mk (List.replicate (w - (Nat.repr n).length) '0') ++ Nat.repr n

/-- `chrono`'s `format("%Y-%m-%d-%H-%M-%S").to_string()`: year zero-padded
to 4 digits, the other fields to 2, joined by `-`. -/
def LocalTime.fmtTimestamp (t : LocalTime) : String :=
  padZeros 4 t.year ++ "-" ++ padZeros 2 t.month ++ "-" ++ padZeros 2 t.day ++ "-" ++
    padZeros 2 t.hour ++ "-" ++ padZeros 2 t.minute ++ "-" ++ padZeros 2 t.second

/-- `chrono`'s `timestamp_subsec_micros()`: the sub-second nanoseconds
divided by 1000. -/
def LocalTime.timestampSubsecMicros (t : LocalTime) : Nat :=
  t.nanos / 1000

/-- The `std::io::ErrorKind` values this development distinguishes;
`other` stands for all remaining kinds. -/
inductive IoErrorKind where
  | notFound
  | unsupported
  | permissionDenied
  | alreadyExists
  | other
deriving Repr, DecidableEq

/-- Model of `std::io::Error` as built by `Error::new(kind, msg)`. -/
structure IoError where
  kind : IoErrorKind
  msg : String
deriving Repr, DecidableEq

/-- The observations the Rust code makes of its input `Path`:
`parent` is `Path::parent()` with the component already passed through
`OsStr::to_str()` (`none` = no parent at all, `some none` = parent not
valid UTF-8, `some (some s)` = parent decodes to `s`); `fileName` likewise
for `Path::file_name()`. -/
structure RustPath where
  parent : Option (Option String)
  fileName : Option (Option String)
deriving Repr, DecidableEq

/-- The environment of one `backup` call: the metadata-syscall results for
the input path and for each candidate-name probe, the clock samples, and
the outcome of the `fs::rename` call. -/
structure Env where
  inputMeta : Except IoError Unit
  nameMeta : Nat → String → Except IoError Unit
  times : Nat → LocalTime
  renameRes : Except IoError Unit

/-- `Path::exists()` from a metadata result: `fs::metadata(..).is_ok()`.
Any failure — absence or an I/O-level error — yields `false`. -/
def metaIsOk : Except IoError Unit → Bool
  | .ok _ => true
  | .error _ => false

/-- One filesystem interaction performed by `backup`. -/
inductive Effect where
  /-- the `path.as_ref().exists()` check on the input -/
  | checkInput
  /-- a `backup_name.exists()` collision probe -/
  | checkName (name : String)
  /-- the final `fs::rename(path, backup_name)` -/
  | renameTo (dst : String)
deriving Repr, DecidableEq

/-- The first candidate: `format!("{}/#{}-{}#", parent, filename, time)`. -/
def initialCandidate (parent filename : String) (t : LocalTime) : String :=
  parent ++ "/#" ++ filename ++ "-" ++ t.fmtTimestamp ++ "#"

/-- A collision-loop candidate:
`format!("{}/#{}-{}-{}#", parent, filename, time_fmt, micros)`. -/
def microCandidate (parent filename : String) (t : LocalTime) : String :=
  parent ++ "/#" ++ filename ++ "-" ++ t.fmtTimestamp ++ "-" ++
    Nat.repr t.timestampSubsecMicros ++ "#"

/-- The sequence of candidate names a run generates: index 0 is the
initial candidate (no microseconds), index `k+1` the candidate recomposed
in the k-th loop iteration from the fresh sample `times (k+1)`. -/
def candSeq (env : Env) (parent filename : String) : Nat → String
  | 0 => initialCandidate parent filename (env.times 0)
  | k + 1 => microCandidate parent filename (env.times (k + 1))

/-- The `while backup_name.exists()` loop. `k` counts the probes already
made, `name` is the current candidate. Returns the free name together with
the probe trace, or `none` when `fuel` probes did not reach a free name. -/
def collisionLoop (env : Env) (parent filename : String) :
    Nat → Nat → String → Option (String × List Effect)
  | 0, _, _ => none
  | fuel + 1, k, name =>
    if metaIsOk (env.nameMeta k name) then
      match collisionLoop env parent filename fuel (k + 1)
          (microCandidate parent filename (env.times (k + 1))) with
      | some (res, tr) => some (res, Effect.checkName name :: tr)
      | none => none
    else
      some (name, [Effect.checkName name])

/-- The `backup` function, instrumented with its effect trace. Mirrors
`pub fn backup` in src/lib.rs line by line: existence check, parent
extraction (empty parent normalized to `"."`), file-name extraction,
initial candidate synthesis, collision loop, rename. -/
def backupTr (env : Env) (p : RustPath) (fuel : Nat) :
    Option (Except IoError String × List Effect) :=
  if metaIsOk env.inputMeta = false then
    some (.error ⟨.notFound, "Path does not exist."⟩, [Effect.checkInput])
  else
    match p.parent with
    | none => some (.error ⟨.unsupported, "Path is root."⟩, [Effect.checkInput])
    | some po =>
      match po with
      | none =>
        some (.error ⟨.unsupported, "Path is not a valid UTF-8."⟩, [Effect.checkInput])
      | some ps =>
        let parent := if ps = "" then "." else ps
        match p.fileName with
        | none =>
          some (.error ⟨.unsupported, "Path ends in '..'."⟩, [Effect.checkInput])
        | some fo =>
          match fo with
          | none =>
            some (.error ⟨.unsupported, "Path is not a valid UTF-8."⟩, [Effect.checkInput])
          | some filename =>
            match collisionLoop env parent filename fuel 0
                (initialCandidate parent filename (env.times 0)) with
            | none => none
            | some (name, tr) =>
              match env.renameRes with
              | .ok _ =>
                some (.ok name, Effect.checkInput :: tr ++ [Effect.renameTo name])
              | .error e =>
                some (.error e, Effect.checkInput :: tr ++ [Effect.renameTo name])

/-- The observable result of `backup`: the trace projected away. -/
def backup (env : Env) (p : RustPath) (fuel : Nat) :
    Option (Except IoError String) :=
  (backupTr env p fuel).map Prod.fst

/-- `match fs::rename(..) { Ok(()) => Ok(backup_name), Err(e) => Err(e) }`. -/
def renameOutcome (r : Except IoError Unit) (name : String) :
    Except IoError String :=
  match r with
  | .ok _ => .ok name
  | .error e => .error e

/-! ### Concrete sample data for evaluation -/

/-- A concrete clock sample: 2023-06-27 21:01:13 (and 123456789 ns). -/
def t0 : LocalTime :=
  ⟨2023, 6, 27, 21, 1, 13, 123456789⟩

/-- Environment where the input exists, no candidate name is taken, and
the rename succeeds. -/
def envFree : Env :=
  { inputMeta := .ok ()
    nameMeta := fun _ _ => .error ⟨.notFound, "No such file or directory"⟩
    times := fun _ => t0
    renameRes := .ok () }

/-- Environment where the metadata syscall on the input path fails with a
permission error (the entry may well exist, but is not accessible). -/
def envDenied : Env :=
  { envFree with inputMeta := .error ⟨.permissionDenied, "Permission denied."⟩ }

/-- Environment where the input path's metadata syscall reports absence. -/
def envMissing : Env :=
  { envFree with inputMeta := .error ⟨.notFound, "No such file or directory"⟩ }

/-- Environment where every candidate name exists: the collision loop
never finds a free name. -/
def envAllBusy : Env :=
  { envFree with nameMeta := fun _ _ => .ok () }

/-- Environment where exactly the first candidate name is taken: one
collision-loop iteration runs. -/
def envOneCollision : Env :=
  { envFree with
    nameMeta := fun k _ =>
      if k = 0 then .ok () else .error ⟨.notFound, "No such file or directory"⟩ }

/-- Environment where the rename call fails with a cross-device error. -/
def envRenameFail : Env :=
  { envFree with renameRes := .error ⟨.other, "Invalid cross-device link"⟩ }

/-- The observations of `Path::new("data.txt")`: parent is `Some("")`,
file name decodes to `"data.txt"`. -/
def pGood : RustPath :=
  ⟨some (some ""), some (some "data.txt")⟩

/-- The observations of `Path::new("/")` (and of `Path::new("")`):
no parent, no file name. -/
def pRoot : RustPath :=
  ⟨none, none⟩

/-- The observations of `Path::new("..")`: parent is `Some("")`, but
`file_name()` is `None`. -/
def pDotdot : RustPath :=
  ⟨some (some ""), none⟩

/-- A path whose parent component is not valid UTF-8. -/
def pBadParent : RustPath :=
  ⟨some none, some (some "data.txt")⟩

/-- A path whose final segment is not valid UTF-8. -/
def pBadName : RustPath :=
  ⟨some (some "dir"), some none⟩

/-- The observations of `Path::new("test_dir/file.txt")`. -/
def pInDir : RustPath :=
  ⟨some (some "test_dir"), some (some "file.txt")⟩

/-! ### Helper lemmas -/

theorem length_padZeros (w n : Nat) (h : (Nat.repr n).length ≤ w) :
    (padZeros w n).length = w := by
  rw [padZeros, String.length_append]
  show (List.replicate (w - (Nat.repr n).length) '0').length + _ = w
  rw [List.length_replicate]
  omega

theorem length_padZeros_two (n : Nat) (h : n < 100) :
    (padZeros 2 n).length = 2 :=
  length_padZeros 2 n (Nat.repr_length n 2 (by norm_num) (by norm_num; omega))

theorem length_padZeros_four (n : Nat) (h : n < 10000) :
    (padZeros 4 n).length = 4 :=
  length_padZeros 4 n (Nat.repr_length n 4 (by norm_num) (by norm_num; omega))

theorem fmtTimestamp_length (t : LocalTime) (hy : t.year < 10000)
    (hmo : t.month < 100) (hd : t.day < 100) (hh : t.hour < 100)
    (hmi : t.minute < 100) (hs : t.second < 100) :
    t.fmtTimestamp.length = 19 := by
  rw [LocalTime.fmtTimestamp]
  rw [String.length_append, String.length_append, String.length_append,
    String.length_append, String.length_append, String.length_append,
    String.length_append, String.length_append, String.length_append,
    String.length_append]
  rw [length_padZeros_four t.year hy, length_padZeros_two t.month hmo,
    length_padZeros_two t.day hd, length_padZeros_two t.hour hh,
    length_padZeros_two t.minute hmi, length_padZeros_two t.second hs]
  rfl

theorem collisionLoop_head (env : Env) (parent fn : String) :
    ∀ fuel k name res tr,
      collisionLoop env parent fn fuel k name = some (res, tr) →
      ∃ rest, tr = Effect.checkName name :: rest := by
  intro fuel k name res tr h
  cases fuel with
  | zero => simp [collisionLoop] at h
  | succ fuel =>
    rw [collisionLoop] at h
    by_cases hb : metaIsOk (env.nameMeta k name) = true
    · rw [if_pos hb] at h
      cases hrec : collisionLoop env parent fn fuel (k + 1)
          (microCandidate parent fn (env.times (k + 1))) with
      | none => rw [hrec] at h; exact absurd h (by simp)
      | some pr =>
        obtain ⟨res', tr'⟩ := pr
        rw [hrec] at h
        simp only [Option.some.injEq, Prod.mk.injEq] at h
        exact ⟨tr', h.2.symm⟩
    · rw [if_neg hb] at h
      simp only [Option.some.injEq, Prod.mk.injEq] at h
      exact ⟨[], h.2.symm⟩

theorem collisionLoop_spec (env : Env) (parent fn : String) :
    ∀ fuel k name res tr,
      collisionLoop env parent fn fuel k name = some (res, tr) →
      (∃ m, k ≤ m ∧ metaIsOk (env.nameMeta m res) = false) ∧
      ∀ e ∈ tr, ∃ n, e = Effect.checkName n := by
  intro fuel
  induction fuel with
  | zero => intro k name res tr h; simp [collisionLoop] at h
  | succ fuel ih =>
    intro k name res tr h
    rw [collisionLoop] at h
    by_cases hb : metaIsOk (env.nameMeta k name) = true
    · rw [if_pos hb] at h
      cases hrec : collisionLoop env parent fn fuel (k + 1)
          (microCandidate parent fn (env.times (k + 1))) with
      | none => rw [hrec] at h; exact absurd h (by simp)
      | some pr =>
        obtain ⟨res', tr'⟩ := pr
        rw [hrec] at h
        simp only [Option.some.injEq, Prod.mk.injEq] at h
        obtain ⟨h1, h2⟩ := h
        obtain ⟨⟨m, hm1, hm2⟩, htr⟩ := ih (k + 1) _ res' tr' hrec
        refine ⟨⟨m, by omega, by rw [← h1]; exact hm2⟩, ?_⟩
        intro e he
        rw [← h2] at he
        rcases List.mem_cons.mp he with rfl | he'
        · exact ⟨name, rfl⟩
        · exact htr e he'
    · rw [if_neg hb] at h
      simp only [Option.some.injEq, Prod.mk.injEq] at h
      obtain ⟨h1, h2⟩ := h
      refine ⟨⟨k, le_rfl, by rw [← h1]; simpa using hb⟩, ?_⟩
      intro e he
      rw [← h2] at he
      rcases List.mem_cons.mp he with rfl | he'
      · exact ⟨name, rfl⟩
      · simp at he'

theorem collisionLoop_none_of_all_busy (env : Env) (parent fn : String)
    (hbusy : ∀ k name, metaIsOk (env.nameMeta k name) = true) :
    ∀ fuel k name, collisionLoop env parent fn fuel k name = none := by
  intro fuel
  induction fuel with
  | zero => intro k name; rfl
  | succ fuel ih =>
    intro k name
    rw [collisionLoop, if_pos (hbusy k name), ih]

theorem collisionLoop_isSome_of_free (env : Env) (parent fn : String) :
    ∀ fuel k j, k ≤ j → j < k + fuel →
      metaIsOk (env.nameMeta j (candSeq env parent fn j)) = false →
      (collisionLoop env parent fn fuel k (candSeq env parent fn k)).isSome = true := by
  intro fuel
  induction fuel with
  | zero => intro k j h1 h2; omega
  | succ fuel ih =>
    intro k j hkj hlt hfree
    rw [collisionLoop]
    by_cases hk : metaIsOk (env.nameMeta k (candSeq env parent fn k)) = true
    · rw [if_pos hk]
      have hne : k ≠ j := by
        intro he; rw [he] at hk; rw [hk] at hfree; exact Bool.true_eq_false.mp hfree
      have hrec := ih (k + 1) j (by omega) (by omega) hfree
      have hcand : microCandidate parent fn (env.times (k + 1))
          = candSeq env parent fn (k + 1) := rfl
      rw [hcand]
      cases hc : collisionLoop env parent fn fuel (k + 1) (candSeq env parent fn (k + 1)) with
      | none => rw [hc] at hrec; simp at hrec
      | some pr => simp
    · rw [if_neg hk]
      rfl

theorem collisionLoop_closed_form (env : Env) (parent fn : String) :
    ∀ fuel k j, k ≤ j → j < k + fuel →
      metaIsOk (env.nameMeta j (candSeq env parent fn j)) = false →
      (∀ i, k ≤ i → i < j → metaIsOk (env.nameMeta i (candSeq env parent fn i)) = true) →
      collisionLoop env parent fn fuel k (candSeq env parent fn k)
        = some (candSeq env parent fn j,
            (List.range' k (j + 1 - k)).map
              (fun i => Effect.checkName (candSeq env parent fn i))) := by
  intro fuel
  induction fuel with
  | zero => intro k j h1 h2; omega
  | succ fuel ih =>
    intro k j hkj hlt hfree hbusy
    rcases Nat.eq_or_lt_of_le hkj with rfl | hk
    · rw [collisionLoop, if_neg (by rw [hfree]; simp)]
      have h1 : k + 1 - k = 1 := by omega
      rw [h1]
      rfl
    · have hb : metaIsOk (env.nameMeta k (candSeq env parent fn k)) = true :=
        hbusy k le_rfl hk
      rw [collisionLoop, if_pos hb]
      have hcand : microCandidate parent fn (env.times (k + 1))
          = candSeq env parent fn (k + 1) := rfl
      rw [hcand, ih (k + 1) j (by omega) (by omega) hfree
        (fun i hi1 hi2 => hbusy i (by omega) hi2)]
      have h1 : j + 1 - k = (j + 1 - (k + 1)) + 1 := by omega
      rw [h1, List.range'_succ, List.map_cons]

theorem backupTr_valid (env : Env) (ps fn : String) (fuel : Nat)
    (hex : metaIsOk env.inputMeta = true) :
    backupTr env ⟨some (some ps), some (some fn)⟩ fuel =
      match collisionLoop env (if ps = "" then "." else ps) fn fuel 0
          (candSeq env (if ps = "" then "." else ps) fn 0) with
      | none => none
      | some (name, tr) =>
        some (renameOutcome env.renameRes name,
          Effect.checkInput :: tr ++ [Effect.renameTo name]) := by
  unfold backupTr
  rw [hex, if_neg (by decide : ¬(true = false))]
  dsimp only [candSeq]
  cases collisionLoop env (if ps = "" then "." else ps) fn fuel 0
      (initialCandidate (if ps = "" then "." else ps) fn (env.times 0)) with
  | none => rfl
  | some pr =>
    obtain ⟨name, tr⟩ := pr
    cases env.renameRes with
    | ok u => rfl
    | error e => rfl

theorem backupTr_validation (env : Env) (p : RustPath) (fuel : Nat)
    (hval : metaIsOk env.inputMeta = false ∨ p.parent = none ∨ p.parent = some none ∨
      p.fileName = none ∨ p.fileName = some none) :
    ∃ e, backupTr env p fuel = some (Except.error e, [Effect.checkInput]) := by
  obtain ⟨pp, pf⟩ := p
  unfold backupTr
  by_cases hin : metaIsOk env.inputMeta = false
  · rw [hin, if_pos rfl]
    exact ⟨_, rfl⟩
  · have hin' : metaIsOk env.inputMeta = true := by simpa using hin
    rw [hin', if_neg (by decide : ¬(true = false))]
    rcases hval with hv | hv | hv | hv | hv
    · exact absurd hv hin
    · rw [show ({ parent := pp, fileName := pf } : RustPath).parent = pp from rfl] at hv
      subst hv
      exact ⟨_, rfl⟩
    · rw [show ({ parent := pp, fileName := pf } : RustPath).parent = pp from rfl] at hv
      subst hv
      exact ⟨_, rfl⟩
    · rw [show ({ parent := pp, fileName := pf } : RustPath).fileName = pf from rfl] at hv
      subst hv
      cases pp with
      | none => exact ⟨_, rfl⟩
      | some po =>
        cases po with
        | none => exact ⟨_, rfl⟩
        | some s => exact ⟨_, rfl⟩
    · rw [show ({ parent := pp, fileName := pf } : RustPath).fileName = pf from rfl] at hv
      subst hv
      cases pp with
      | none => exact ⟨_, rfl⟩
      | some po =>
        cases po with
        | none => exact ⟨_, rfl⟩
        | some s => exact ⟨_, rfl⟩

theorem backupTr_cases (env : Env) (p : RustPath) (fuel : Nat)
    (res : Except IoError String) (tr : List Effect)
    (h : backupTr env p fuel = some (res, tr)) :
    (tr = [Effect.checkInput] ∧
      (res = .error ⟨.notFound, "Path does not exist."⟩ ∨
       res = .error ⟨.unsupported, "Path is root."⟩ ∨
       res = .error ⟨.unsupported, "Path is not a valid UTF-8."⟩ ∨
       res = .error ⟨.unsupported, "Path ends in '..'."⟩)) ∨
    (∃ ps fn name trL,
      metaIsOk env.inputMeta = true ∧
      p.parent = some (some ps) ∧ p.fileName = some (some fn) ∧
      collisionLoop env (if ps = "" then "." else ps) fn fuel 0
        (candSeq env (if ps = "" then "." else ps) fn 0) = some (name, trL) ∧
      tr = Effect.checkInput :: trL ++ [Effect.renameTo name] ∧
      res = renameOutcome env.renameRes name) := by
  obtain ⟨pp, pf⟩ := p
  by_cases hin : metaIsOk env.inputMeta = false
  · unfold backupTr at h
    rw [hin, if_pos rfl] at h
    simp only [Option.some.injEq, Prod.mk.injEq] at h
    exact Or.inl ⟨h.2.symm, Or.inl h.1.symm⟩
  · have hin' : metaIsOk env.inputMeta = true := by simpa using hin
    cases pp with
    | none =>
      unfold backupTr at h
      rw [hin', if_neg (by decide : ¬(true = false))] at h
      simp only [Option.some.injEq, Prod.mk.injEq] at h
      exact Or.inl ⟨h.2.symm, Or.inr (Or.inl h.1.symm)⟩
    | some po =>
      cases po with
      | none =>
        unfold backupTr at h
        rw [hin', if_neg (by decide : ¬(true = false))] at h
        simp only [Option.some.injEq, Prod.mk.injEq] at h
        exact Or.inl ⟨h.2.symm, Or.inr (Or.inr (Or.inl h.1.symm))⟩
      | some ps =>
        cases pf with
        | none =>
          unfold backupTr at h
          rw [hin', if_neg (by decide : ¬(true = false))] at h
          simp only [Option.some.injEq, Prod.mk.injEq] at h
          exact Or.inl ⟨h.2.symm, Or.inr (Or.inr (Or.inr h.1.symm))⟩
        | some fo =>
          cases fo with
          | none =>
            unfold backupTr at h
            rw [hin', if_neg (by decide : ¬(true = false))] at h
            simp only [Option.some.injEq, Prod.mk.injEq] at h
            exact Or.inl ⟨h.2.symm, Or.inr (Or.inr (Or.inl h.1.symm))⟩
          | some fn =>
            rw [backupTr_valid env ps fn fuel hin'] at h
            cases hc : collisionLoop env (if ps = "" then "." else ps) fn fuel 0
                (candSeq env (if ps = "" then "." else ps) fn 0) with
            | none => rw [hc] at h; exact absurd h (by simp)
            | some pr =>
              obtain ⟨name, trL⟩ := pr
              rw [hc] at h
              simp only [Option.some.injEq, Prod.mk.injEq] at h
              exact Or.inr ⟨ps, fn, name, trL, hin', rfl, rfl, hc, h.2.symm, h.1.symm⟩

theorem backupTr_rename_result (env : Env) (p : RustPath) (fuel : Nat)
    (res : Except IoError String) (tr : List Effect) (d : String)
    (h : backupTr env p fuel = some (res, tr))
    (hd : tr.getLast? = some (Effect.renameTo d)) :
    res = renameOutcome env.renameRes d := by
  rcases backupTr_cases env p fuel res tr h with
    ⟨htr, _⟩ | ⟨ps, fn, nm, trL, hex, hp, hf, hc, htr, hres⟩
  · rw [htr] at hd
    simp at hd
  · have hnm : nm = d := by
      rw [htr, show Effect.checkInput :: trL ++ [Effect.renameTo nm]
        = (Effect.checkInput :: trL) ++ [Effect.renameTo nm] from rfl,
        List.getLast?_concat] at hd
      simp only [Option.some.injEq, Effect.renameTo.injEq] at hd
      exact hd
    rw [hres, hnm]

/-! ### Claim theorems -/

/-- C1. `backup` performs its validation checks in order, the first
failing check determining the error: (1) when the existence probe of the
input fails, the result is `NotFound` ("Path does not exist.") regardless
of the path's shape; with an existing input, (2) a path with no parent
component fails with "Path is root."; (3) a parent component that does not
decode as UTF-8 fails with "Path is not a valid UTF-8.", while an empty
parent component behaves exactly as the parent `"."`; (4) with a decodable
parent, a path with no usable final segment (it ends in `..`) fails with
"Path ends in '..'."; (5) a final segment that does not decode as UTF-8
fails with "Path is not a valid UTF-8.".  In particular `backup("")` — the
empty path is observed as `⟨none, none⟩` and its existence probe fails —
yields `NotFound` rather than an invalid-path error, by clause (1). -/
theorem backup_validation_order (env : Env) (p : RustPath) (fuel : Nat) :
    (metaIsOk env.inputMeta = false →
      backup env p fuel = some (.error ⟨.notFound, "Path does not exist."⟩)) ∧
    (metaIsOk env.inputMeta = true → p.parent = none →
      backup env p fuel = some (.error ⟨.unsupported, "Path is root."⟩)) ∧
    (metaIsOk env.inputMeta = true → p.parent = some none →
      backup env p fuel = some (.error ⟨.unsupported, "Path is not a valid UTF-8."⟩)) ∧
    (metaIsOk env.inputMeta = true → p.parent = some (some "") →
      backup env p fuel = backup env { p with parent := some (some ".") } fuel) ∧
    (metaIsOk env.inputMeta = true → (∃ s, p.parent = some (some s)) →
      p.fileName = none →
      backup env p fuel = some (.error ⟨.unsupported, "Path ends in '..'."⟩)) ∧
    (metaIsOk env.inputMeta = true → (∃ s, p.parent = some (some s)) →
      p.fileName = some none →
      backup env p fuel = some (.error ⟨.unsupported, "Path is not a valid UTF-8."⟩)) := by
  obtain ⟨pp, pf⟩ := p
  refine ⟨?_, ?_, ?_, ?_, ?_, ?_⟩
  · intro hin
    simp only [backup]
    unfold backupTr
    rw [hin, if_pos rfl]
    rfl
  · intro hex hp
    rw [show ({ parent := pp, fileName := pf } : RustPath).parent = pp from rfl] at hp
    subst hp
    simp only [backup]
    unfold backupTr
    rw [hex, if_neg (by decide : ¬(true = false))]
    rfl
  · intro hex hp
    rw [show ({ parent := pp, fileName := pf } : RustPath).parent = pp from rfl] at hp
    subst hp
    simp only [backup]
    unfold backupTr
    rw [hex, if_neg (by decide : ¬(true = false))]
    rfl
  · intro hex hp
    rw [show ({ parent := pp, fileName := pf } : RustPath).parent = pp from rfl] at hp
    subst hp
    simp only [backup]
    unfold backupTr
    rw [hex, if_neg (by decide : ¬(true = false))]
    rfl
  · intro hex hps hf
    obtain ⟨s, hp⟩ := hps
    rw [show ({ parent := pp, fileName := pf } : RustPath).parent = pp from rfl] at hp
    rw [show ({ parent := pp, fileName := pf } : RustPath).fileName = pf from rfl] at hf
    subst hp
    subst hf
    simp only [backup]
    unfold backupTr
    rw [hex, if_neg (by decide : ¬(true = false))]
    rfl
  · intro hex hps hf
    obtain ⟨s, hp⟩ := hps
    rw [show ({ parent := pp, fileName := pf } : RustPath).parent = pp from rfl] at hp
    rw [show ({ parent := pp, fileName := pf } : RustPath).fileName = pf from rfl] at hf
    subst hp
    subst hf
    simp only [backup]
    unfold backupTr
    rw [hex, if_neg (by decide : ¬(true = false))]
    rfl

/-- Witness for `backup_validation_order`: the tested inputs of the crate.
A missing path (also the empty string) gives `NotFound`; `/` gives
"Path is root."; a non-UTF-8 parent gives the UTF-8 error; `data.txt`
(empty parent) behaves as `./data.txt`; `..` gives "Path ends in '..'.";
a non-UTF-8 file name gives the UTF-8 error. -/
theorem backup_validation_order_witness :
    backup envMissing pRoot 1 = some (.error ⟨.notFound, "Path does not exist."⟩) ∧
    backup envFree pRoot 1 = some (.error ⟨.unsupported, "Path is root."⟩) ∧
    backup envFree pBadParent 1 =
      some (.error ⟨.unsupported, "Path is not a valid UTF-8."⟩) ∧
    backup envFree pGood 1 = backup envFree { pGood with parent := some (some ".") } 1 ∧
    backup envFree pDotdot 1 = some (.error ⟨.unsupported, "Path ends in '..'."⟩) ∧
    backup envFree pBadName 1 =
      some (.error ⟨.unsupported, "Path is not a valid UTF-8."⟩) :=
  ⟨(backup_validation_order envMissing pRoot 1).1 rfl,
   (backup_validation_order envFree pRoot 1).2.1 rfl rfl,
   (backup_validation_order envFree pBadParent 1).2.2.1 rfl rfl,
   (backup_validation_order envFree pGood 1).2.2.2.1 rfl rfl,
   (backup_validation_order envFree pDotdot 1).2.2.2.2.1 rfl ⟨"", rfl⟩ rfl,
   (backup_validation_order envFree pBadName 1).2.2.2.2.2 rfl ⟨"dir", rfl⟩ rfl⟩

/-- C2. For an existing, valid input path, the first synthesized
candidate — the first name whose existence is probed — is exactly
`<parent>/#<base-name>-<timestamp>#`: the parent (an empty parent
normalized to `"."`), the literal `/#`, the final segment, `-`, the
initial clock sample formatted as zero-padded `YYYY-MM-DD-HH-MM-SS`
(19 characters when the calendar fields are in range), and the closing
`#`.  No microsecond suffix occurs in this first candidate. -/
theorem backup_first_candidate (env : Env) (ps fn : String) (fuel : Nat)
    (res : Except IoError String) (tr : List Effect)
    (hex : metaIsOk env.inputMeta = true)
    (h : backupTr env ⟨some (some ps), some (some fn)⟩ fuel = some (res, tr))
    (hy : (env.times 0).year < 10000) (hmo : (env.times 0).month < 100)
    (hd : (env.times 0).day < 100) (hh : (env.times 0).hour < 100)
    (hmi : (env.times 0).minute < 100) (hs : (env.times 0).second < 100) :
    ∃ rest, tr = Effect.checkInput :: Effect.checkName
        ((if ps = "" then "." else ps) ++ "/#" ++ fn ++ "-" ++
          (env.times 0).fmtTimestamp ++ "#") :: rest ∧
      (env.times 0).fmtTimestamp =
        padZeros 4 (env.times 0).year ++ "-" ++ padZeros 2 (env.times 0).month ++ "-" ++
        padZeros 2 (env.times 0).day ++ "-" ++ padZeros 2 (env.times 0).hour ++ "-" ++
        padZeros 2 (env.times 0).minute ++ "-" ++ padZeros 2 (env.times 0).second ∧
      (env.times 0).fmtTimestamp.length = 19 := by
  rw [backupTr_valid env ps fn fuel hex] at h
  cases hc : collisionLoop env (if ps = "" then "." else ps) fn fuel 0
      (candSeq env (if ps = "" then "." else ps) fn 0) with
  | none => rw [hc] at h; exact absurd h (by simp)
  | some pr =>
    obtain ⟨name, trL⟩ := pr
    rw [hc] at h
    simp only [Option.some.injEq, Prod.mk.injEq] at h
    obtain ⟨rest0, hrest0⟩ :=
      collisionLoop_head env (if ps = "" then "." else ps) fn fuel 0
        (candSeq env (if ps = "" then "." else ps) fn 0) name trL hc
    refine ⟨rest0 ++ [Effect.renameTo name], ?_, rfl,
      fmtTimestamp_length (env.times 0) hy hmo hd hh hmi hs⟩
    rw [← h.2, hrest0]
    rfl

/-- Witness for `backup_first_candidate`: concrete run on `data.txt` at
2023-06-27 21:01:13. -/
theorem backup_first_candidate_witness :
    ∃ rest,
      [Effect.checkInput,
        Effect.checkName "./#data.txt-2023-06-27-21-01-13#",
        Effect.renameTo "./#data.txt-2023-06-27-21-01-13#"] =
        Effect.checkInput :: Effect.checkName
          ((if "" = "" then "." else "") ++ "/#" ++ "data.txt" ++ "-" ++
            (envFree.times 0).fmtTimestamp ++ "#") :: rest ∧
      (envFree.times 0).fmtTimestamp =
        padZeros 4 (envFree.times 0).year ++ "-" ++ padZeros 2 (envFree.times 0).month ++ "-" ++
        padZeros 2 (envFree.times 0).day ++ "-" ++ padZeros 2 (envFree.times 0).hour ++ "-" ++
        padZeros 2 (envFree.times 0).minute ++ "-" ++ padZeros 2 (envFree.times 0).second ∧
      (envFree.times 0).fmtTimestamp.length = 19 :=
  backup_first_candidate envFree "" "data.txt" 1
    (.ok "./#data.txt-2023-06-27-21-01-13#")
    [Effect.checkInput,
      Effect.checkName "./#data.txt-2023-06-27-21-01-13#",
      Effect.renameTo "./#data.txt-2023-06-27-21-01-13#"]
    rfl rfl (by decide) (by decide) (by decide) (by decide) (by decide) (by decide)

/-- C3. The collision loop: every loop iteration `k` re-samples the
clock (`times (k+1)`), re-formats the one-second timestamp from this new
sample, extracts the same sample's microseconds, and recomposes the
candidate as `<parent>/#<base-name>-<timestamp>-<microseconds>#` (the
first conjunct).  When candidates `0..j-1` all exist and candidate `j`
does not, the run probes the candidates in order, stops at the first free
one, and only then renames — the rename is the last effect, on exactly
that candidate (the second conjunct). -/
theorem backup_collision_iterations (env : Env) (ps fn : String)
    (fuel j : Nat) (hex : metaIsOk env.inputMeta = true)
    (hfree : metaIsOk (env.nameMeta j
      (candSeq env (if ps = "" then "." else ps) fn j)) = false)
    (hbusy : ∀ i, i < j → metaIsOk (env.nameMeta i
      (candSeq env (if ps = "" then "." else ps) fn i)) = true)
    (hfuel : j < fuel) :
    (∀ k, candSeq env (if ps = "" then "." else ps) fn (k + 1) =
      (if ps = "" then "." else ps) ++ "/#" ++ fn ++ "-" ++
        (env.times (k + 1)).fmtTimestamp ++ "-" ++
        Nat.repr ((env.times (k + 1)).timestampSubsecMicros) ++ "#") ∧
    backupTr env ⟨some (some ps), some (some fn)⟩ fuel =
      some (renameOutcome env.renameRes
          (candSeq env (if ps = "" then "." else ps) fn j),
        Effect.checkInput ::
          (List.range' 0 (j + 1)).map
            (fun i => Effect.checkName (candSeq env (if ps = "" then "." else ps) fn i)) ++
          [Effect.renameTo (candSeq env (if ps = "" then "." else ps) fn j)]) := by
  refine ⟨fun k => rfl, ?_⟩
  rw [backupTr_valid env ps fn fuel hex,
    collisionLoop_closed_form env (if ps = "" then "." else ps) fn fuel 0 j
      (Nat.zero_le j) (by omega) hfree (fun i _ hi => hbusy i hi)]
  rfl

/-- Witness for `backup_collision_iterations`: the first candidate is
taken, one iteration appends the microseconds, the rename hits the second
candidate. -/
theorem backup_collision_iterations_witness :
    (∀ k, candSeq envOneCollision "test_dir" "file.txt" (k + 1) =
      "test_dir" ++ "/#" ++ "file.txt" ++ "-" ++
        (envOneCollision.times (k + 1)).fmtTimestamp ++ "-" ++
        Nat.repr ((envOneCollision.times (k + 1)).timestampSubsecMicros) ++ "#") ∧
    backupTr envOneCollision pInDir 2 =
      some (renameOutcome envOneCollision.renameRes
          (candSeq envOneCollision "test_dir" "file.txt" 1),
        Effect.checkInput ::
          (List.range' 0 2).map
            (fun i => Effect.checkName (candSeq envOneCollision "test_dir" "file.txt" i)) ++
          [Effect.renameTo (candSeq envOneCollision "test_dir" "file.txt" 1)]) := by
  have h := backup_collision_iterations envOneCollision "test_dir" "file.txt" 2 1
    rfl rfl (fun i hi => by
      have h0 : i = 0 := by omega
      subst h0
      rfl)
    (by omega)
  simpa using h

/-- C4. On success, the returned Backup Name is the rename destination
and did not exist at its last probe: the trace ends with the rename of
exactly the returned path, and some existence probe of that very name
returned false. -/
theorem backup_returned_name_was_free (env : Env) (p : RustPath) (fuel : Nat)
    (name : String) (tr : List Effect)
    (h : backupTr env p fuel = some (.ok name, tr)) :
    (∃ k, metaIsOk (env.nameMeta k name) = false) ∧
    tr.getLast? = some (Effect.renameTo name) := by
  rcases backupTr_cases env p fuel (.ok name) tr h with
    ⟨htr, hres⟩ | ⟨ps, fn, nm, trL, hex, hp, hf, hc, htr, hres⟩
  · rcases hres with h1 | h1 | h1 | h1 <;> exact absurd h1 (by simp)
  · have hnm : name = nm := by
      cases hr : env.renameRes with
      | ok u =>
        rw [hr] at hres
        simpa [renameOutcome] using hres
      | error e =>
        rw [hr] at hres
        simp [renameOutcome] at hres
    subst hnm
    obtain ⟨⟨m, _, hm⟩, _⟩ :=
      collisionLoop_spec env (if ps = "" then "." else ps) fn fuel 0
        (candSeq env (if ps = "" then "." else ps) fn 0) name trL hc
    refine ⟨⟨m, hm⟩, ?_⟩
    rw [htr, show Effect.checkInput :: trL ++ [Effect.renameTo name]
      = (Effect.checkInput :: trL) ++ [Effect.renameTo name] from rfl,
      List.getLast?_concat]

/-- Witness for `backup_returned_name_was_free`: the successful run on
`data.txt`. -/
theorem backup_returned_name_was_free_witness :
    (∃ k, metaIsOk (envFree.nameMeta k "./#data.txt-2023-06-27-21-01-13#") = false) ∧
    [Effect.checkInput,
      Effect.checkName "./#data.txt-2023-06-27-21-01-13#",
      Effect.renameTo "./#data.txt-2023-06-27-21-01-13#"].getLast? =
      some (Effect.renameTo "./#data.txt-2023-06-27-21-01-13#") :=
  backup_returned_name_was_free envFree pGood 1 "./#data.txt-2023-06-27-21-01-13#"
    [Effect.checkInput,
      Effect.checkName "./#data.txt-2023-06-27-21-01-13#",
      Effect.renameTo "./#data.txt-2023-06-27-21-01-13#"] rfl

/-- C5. Once the rename is attempted (the trace ends with a rename of
`d`): if the rename primitive fails, `backup` returns exactly the error
value the primitive produced, unmodified; if it succeeds, `backup` returns
`Ok` with `d`, the resolved Backup Name. -/
theorem backup_rename_outcome (env : Env) (p : RustPath) (fuel : Nat)
    (res : Except IoError String) (tr : List Effect) (d : String)
    (h : backupTr env p fuel = some (res, tr))
    (hd : tr.getLast? = some (Effect.renameTo d)) :
    (∀ e, env.renameRes = .error e → res = .error e) ∧
    (env.renameRes = .ok () → res = .ok d) := by
  have hres := backupTr_rename_result env p fuel res tr d h hd
  constructor
  · intro e hr
    rw [hres, hr]
    rfl
  · intro hr
    rw [hres, hr]
    rfl

/-- Witness for `backup_rename_outcome`: a failing rename propagates its
exact error; dually the successful branch is exercised through the
hypothesis `envRenameFail.renameRes = .ok ()` being unprovable, so the
success conjunct is demonstrated on `envFree`. -/
theorem backup_rename_outcome_witness :
    ((∀ e, envRenameFail.renameRes = .error e →
        (Except.error ⟨.other, "Invalid cross-device link"⟩ :
          Except IoError String) = .error e) ∧
      (envRenameFail.renameRes = .ok () →
        (Except.error ⟨.other, "Invalid cross-device link"⟩ :
          Except IoError String) = .ok "./#data.txt-2023-06-27-21-01-13#")) ∧
    ((∀ e, envFree.renameRes = .error e →
        (Except.ok "./#data.txt-2023-06-27-21-01-13#" :
          Except IoError String) = .error e) ∧
      (envFree.renameRes = .ok () →
        (Except.ok "./#data.txt-2023-06-27-21-01-13#" :
          Except IoError String) = .ok "./#data.txt-2023-06-27-21-01-13#")) :=
  ⟨backup_rename_outcome envRenameFail pGood 1
      (.error ⟨.other, "Invalid cross-device link"⟩)
      [Effect.checkInput,
        Effect.checkName "./#data.txt-2023-06-27-21-01-13#",
        Effect.renameTo "./#data.txt-2023-06-27-21-01-13#"]
      "./#data.txt-2023-06-27-21-01-13#" rfl rfl,
   backup_rename_outcome envFree pGood 1
      (.ok "./#data.txt-2023-06-27-21-01-13#")
      [Effect.checkInput,
        Effect.checkName "./#data.txt-2023-06-27-21-01-13#",
        Effect.renameTo "./#data.txt-2023-06-27-21-01-13#"]
      "./#data.txt-2023-06-27-21-01-13#" rfl rfl⟩

/-- C6. Frame condition: when a validation check fails (the input
does not exist, has no parent, a non-UTF-8 parent, no usable final
segment, or a non-UTF-8 final segment), `backup` returns an error having
performed nothing but the input existence check — no rename, no mutation.
In every run the trace contains at most one rename, and every effect is an
existence check or the rename: no other writes, no reads of file content,
no directory traversal. -/
theorem backup_frame_condition (env : Env) (p : RustPath) (fuel : Nat)
    (res : Except IoError String) (tr : List Effect)
    (h : backupTr env p fuel = some (res, tr)) :
    ((metaIsOk env.inputMeta = false ∨ p.parent = none ∨ p.parent = some none ∨
        p.fileName = none ∨ p.fileName = some none) →
      (∃ e, res = Except.error e) ∧ tr = [Effect.checkInput]) ∧
    tr.countP (fun eff => match eff with | .renameTo _ => true | _ => false) ≤ 1 ∧
    ∀ eff ∈ tr, eff = Effect.checkInput ∨ (∃ n, eff = Effect.checkName n) ∨
      ∃ n, eff = Effect.renameTo n := by
  refine ⟨?_, ?_, ?_⟩
  · intro hval
    obtain ⟨e, he⟩ := backupTr_validation env p fuel hval
    rw [he] at h
    simp only [Option.some.injEq, Prod.mk.injEq] at h
    exact ⟨⟨e, h.1.symm⟩, h.2.symm⟩
  · rcases backupTr_cases env p fuel res tr h with
      ⟨htr, _⟩ | ⟨ps, fn, nm, trL, _, _, _, hc, htr, _⟩
    · rw [htr]
      decide
    · rw [htr]
      have hck := (collisionLoop_spec env (if ps = "" then "." else ps) fn fuel 0
        (candSeq env (if ps = "" then "." else ps) fn 0) nm trL hc).2
      have h0 : trL.countP
          (fun eff => match eff with | .renameTo _ => true | _ => false) = 0 :=
        List.countP_eq_zero.mpr (fun a ha => by
          obtain ⟨n, rfl⟩ := hck a ha
          simp)
      simp [List.countP_cons, List.countP_append, h0]
  · rcases backupTr_cases env p fuel res tr h with
      ⟨htr, _⟩ | ⟨ps, fn, nm, trL, _, _, _, hc, htr, _⟩
    · rw [htr]
      intro eff he
      simp only [List.mem_singleton] at he
      exact Or.inl he
    · rw [htr]
      have hck := (collisionLoop_spec env (if ps = "" then "." else ps) fn fuel 0
        (candSeq env (if ps = "" then "." else ps) fn 0) nm trL hc).2
      intro eff he
      rcases List.mem_cons.mp he with rfl | he'
      · exact Or.inl rfl
      · rcases List.mem_append.mp he' with h1 | h1
        · exact Or.inr (Or.inl (hck eff h1))
        · simp only [List.mem_singleton] at h1
          exact Or.inr (Or.inr ⟨nm, h1⟩)

/-- Witness for `backup_frame_condition`: the failed-validation run on
`..` touches nothing but the input existence check. -/
theorem backup_frame_condition_witness :
    ((metaIsOk envFree.inputMeta = false ∨ pDotdot.parent = none ∨
        pDotdot.parent = some none ∨ pDotdot.fileName = none ∨
        pDotdot.fileName = some none) →
      (∃ e, (Except.error ⟨.unsupported, "Path ends in '..'."⟩ :
        Except IoError String) = Except.error e) ∧
      ([Effect.checkInput] : List Effect) = [Effect.checkInput]) ∧
    ([Effect.checkInput] : List Effect).countP
      (fun eff => match eff with | .renameTo _ => true | _ => false) ≤ 1 ∧
    ∀ eff ∈ ([Effect.checkInput] : List Effect),
      eff = Effect.checkInput ∨ (∃ n, eff = Effect.checkName n) ∨
        ∃ n, eff = Effect.renameTo n :=
  backup_frame_condition envFree pDotdot 1
    (.error ⟨.unsupported, "Path ends in '..'."⟩) [Effect.checkInput] rfl

/-- C7, counterexample. The claim says any I/O-level failure of an
existence check is propagated verbatim to the caller as an `Io` error.
It is false: `Path::exists()` is `fs::metadata(..).is_ok()` and maps every
failure — including a permission error — to `false`.  With an input whose
metadata syscall fails with "Permission denied.", `backup` reports
`NotFound` "Path does not exist.", not the permission error. -/
theorem backup_probe_error_cex :
    backup envDenied pGood 1 =
      some (.error ⟨.notFound, "Path does not exist."⟩) ∧
    (IoError.mk .notFound "Path does not exist." ≠
      IoError.mk .permissionDenied "Permission denied.") :=
  ⟨rfl, by decide⟩

/-- C7, amended. Only the rename call's failure is propagated verbatim
as an `Io` error.  The existence checks cannot surface an I/O failure:
a failing metadata syscall on the input path is reported as `NotFound`
("Path does not exist."), whatever the underlying error was, and a failing
metadata syscall on a collision probe makes the loop treat that candidate
as free and accept it immediately. -/
theorem backup_io_error_policy (env : Env) (p : RustPath) (fuel : Nat) :
    (∀ e, env.inputMeta = .error e →
      backup env p fuel = some (.error ⟨.notFound, "Path does not exist."⟩)) ∧
    (∀ res tr d e, backupTr env p fuel = some (res, tr) →
      tr.getLast? = some (Effect.renameTo d) → env.renameRes = .error e →
      res = .error e) ∧
    (∀ fuel2 k name e parent fn, env.nameMeta k name = .error e →
      collisionLoop env parent fn (fuel2 + 1) k name =
        some (name, [Effect.checkName name])) := by
  refine ⟨?_, ?_, ?_⟩
  · intro e he
    have hin : metaIsOk env.inputMeta = false := by rw [he]; rfl
    simp only [backup]
    unfold backupTr
    rw [hin, if_pos rfl]
    rfl
  · intro res tr d e h hd hr
    rw [backupTr_rename_result env p fuel res tr d h hd, hr]
    rfl
  · intro fuel2 k name e parent fn he
    rw [collisionLoop, if_neg (by rw [he]; simp [metaIsOk])]

/-- Witness for `backup_io_error_policy` at concrete runs: a missing
input is reported as `NotFound`; a failing rename on `data.txt` returns
its exact error; a probe whose metadata call fails accepts the candidate
at once. -/
theorem backup_io_error_policy_witness :
    backup envMissing pGood 1 =
      some (.error ⟨.notFound, "Path does not exist."⟩) ∧
    (Except.error ⟨.other, "Invalid cross-device link"⟩ :
        Except IoError String) =
      .error ⟨.other, "Invalid cross-device link"⟩ ∧
    collisionLoop envFree "." "data.txt" 1 0 "./#data.txt-2023-06-27-21-01-13#" =
      some ("./#data.txt-2023-06-27-21-01-13#",
        [Effect.checkName "./#data.txt-2023-06-27-21-01-13#"]) :=
  ⟨(backup_io_error_policy envMissing pGood 1).1
      ⟨.notFound, "No such file or directory"⟩ rfl,
   (backup_io_error_policy envRenameFail pGood 1).2.1
      (.error ⟨.other, "Invalid cross-device link"⟩)
      [Effect.checkInput,
        Effect.checkName "./#data.txt-2023-06-27-21-01-13#",
        Effect.renameTo "./#data.txt-2023-06-27-21-01-13#"]
      "./#data.txt-2023-06-27-21-01-13#"
      ⟨.other, "Invalid cross-device link"⟩ rfl rfl rfl,
   (backup_io_error_policy envFree pGood 1).2.2 0 0
      "./#data.txt-2023-06-27-21-01-13#"
      ⟨.notFound, "No such file or directory"⟩ "." "data.txt" rfl⟩

/-- C8. In every collision-loop iteration, the disambiguator appended
to the candidate is the microsecond count of the iteration's clock sample:
for a sample coming from the system clock (sub-second nanoseconds below
one second), it is a natural number at most 999999, rendered by the plain
decimal representation `Nat.repr` — at most 6 characters, no fixed-width
padding. -/
theorem micro_disambiguator_range (env : Env) (parent fn : String) (k : Nat)
    (h : (env.times (k + 1)).nanos < 1000000000) :
    candSeq env parent fn (k + 1) =
      parent ++ "/#" ++ fn ++ "-" ++ (env.times (k + 1)).fmtTimestamp ++ "-" ++
        Nat.repr ((env.times (k + 1)).timestampSubsecMicros) ++ "#" ∧
    (env.times (k + 1)).timestampSubsecMicros ≤ 999999 ∧
    (Nat.repr ((env.times (k + 1)).timestampSubsecMicros)).length ≤ 6 := by
  have hm : (env.times (k + 1)).timestampSubsecMicros ≤ 999999 := by
    show (env.times (k + 1)).nanos / 1000 ≤ 999999
    omega
  refine ⟨rfl, hm, ?_⟩
  exact Nat.repr_length _ 6 (by norm_num) (by
    have h6 : (10 : Nat) ^ 6 = 1000000 := by norm_num
    omega)

/-- Witness for `micro_disambiguator_range`: the sample at
2023-06-27 21:01:13.123456789 gives the disambiguator 123456. -/
theorem micro_disambiguator_range_witness :
    candSeq envFree "." "data.txt" 1 =
      "." ++ "/#" ++ "data.txt" ++ "-" ++ (envFree.times 1).fmtTimestamp ++ "-" ++
        Nat.repr ((envFree.times 1).timestampSubsecMicros) ++ "#" ∧
    (envFree.times 1).timestampSubsecMicros ≤ 999999 ∧
    (Nat.repr ((envFree.times 1).timestampSubsecMicros)).length ≤ 6 :=
  micro_disambiguator_range envFree "." "data.txt" 0 (by decide)

/-- C9. Termination of the collision loop: whenever some candidate in
the generated sequence is free within the probe budget, the loop returns
(first conjunct); and the loop has no internal iteration cap or fallback —
for every budget there is an environment (every name taken) in which the
loop is still running after that many probes, having produced no result
(second conjunct). -/
theorem collision_loop_termination :
    (∀ (env : Env) (parent fn : String) (fuel j : Nat),
      metaIsOk (env.nameMeta j (candSeq env parent fn j)) = false → j < fuel →
      (collisionLoop env parent fn fuel 0 (candSeq env parent fn 0)).isSome = true) ∧
    (∀ fuel : Nat, ∃ env : Env, ∀ (parent fn : String) (k : Nat) (name : String),
      collisionLoop env parent fn fuel k name = none) := by
  constructor
  · intro env parent fn fuel j hfree hlt
    exact collisionLoop_isSome_of_free env parent fn fuel 0 j (Nat.zero_le j)
      (by omega) hfree
  · intro fuel
    exact ⟨envAllBusy, fun parent fn k name =>
      collisionLoop_none_of_all_busy envAllBusy parent fn (fun _ _ => rfl) fuel k name⟩

/-- Witness for `collision_loop_termination`: with every name free the
loop returns after one probe; with every name taken a budget of one probe
is exhausted. -/
theorem collision_loop_termination_witness :
    (collisionLoop envFree "." "data.txt" 1 0
      (candSeq envFree "." "data.txt" 0)).isSome = true ∧
    ∃ env : Env, ∀ (parent fn : String) (k : Nat) (name : String),
      collisionLoop env parent fn 1 k name = none :=
  ⟨collision_loop_termination.1 envFree "." "data.txt" 1 0 rfl (by omega),
   collision_loop_termination.2 1⟩

/-- C10. The public error type is `std::io::Error` (the result type is
`Except IoError String`), and every error `backup` returns is either the
rename primitive's own error, propagated untouched, or one of the four
errors `backup` constructs itself: `NotFound` "Path does not exist.",
`Unsupported` "Path is root.", `Unsupported` "Path ends in '..'.",
`Unsupported` "Path is not a valid UTF-8.".  No other kind is constructed
by `backup` itself. -/
theorem backup_error_taxonomy (env : Env) (p : RustPath) (fuel : Nat)
    (e : IoError) (h : backup env p fuel = some (.error e)) :
    env.renameRes = .error e ∨
    e = ⟨.notFound, "Path does not exist."⟩ ∨
    e = ⟨.unsupported, "Path is root."⟩ ∨
    e = ⟨.unsupported, "Path ends in '..'."⟩ ∨
    e = ⟨.unsupported, "Path is not a valid UTF-8."⟩ := by
  simp only [backup] at h
  cases ht : backupTr env p fuel with
  | none => rw [ht] at h; exact absurd h (by simp)
  | some pr =>
    obtain ⟨res, tr⟩ := pr
    rw [ht] at h
    simp only [Option.map_some', Option.some.injEq] at h
    rcases backupTr_cases env p fuel res tr ht with
      ⟨_, hres⟩ | ⟨ps, fn, nm, trL, _, _, _, _, _, hres⟩
    · rw [h] at hres
      rcases hres with h1 | h1 | h1 | h1 <;>
        simp only [Except.error.injEq] at h1 <;> tauto
    · rw [h] at hres
      cases hr : env.renameRes with
      | ok u =>
        rw [hr] at hres
        simp [renameOutcome] at hres
      | error e2 =>
        rw [hr] at hres
        simp only [renameOutcome, Except.error.injEq] at hres
        exact Or.inl (by rw [hres])

/-- Witness for `backup_error_taxonomy`: the failing-rename run returns
exactly the rename error. -/
theorem backup_error_taxonomy_witness :
    envRenameFail.renameRes = .error ⟨.other, "Invalid cross-device link"⟩ ∨
    (⟨.other, "Invalid cross-device link"⟩ : IoError) =
      ⟨.notFound, "Path does not exist."⟩ ∨
    (⟨.other, "Invalid cross-device link"⟩ : IoError) =
      ⟨.unsupported, "Path is root."⟩ ∨
    (⟨.other, "Invalid cross-device link"⟩ : IoError) =
      ⟨.unsupported, "Path ends in '..'."⟩ ∨
    (⟨.other, "Invalid cross-device link"⟩ : IoError) =
      ⟨.unsupported, "Path is not a valid UTF-8."⟩ :=
  backup_error_taxonomy envRenameFail pGood 1
    ⟨.other, "Invalid cross-device link"⟩ rfl

end Backitup
